import Mathlib

/-!
Verification of the wallpaper-swatch-metadata workflow.

Shallow embedding of the repository sources:
  app.py  — session workflow (extract, edit, accept, describe, save handlers)
  llm.py  — extraction JSON recovery, categorical validator
  db.py   — upsert persistence

Python dictionaries parsed from JSON are modelled as association lists of
JSON values; Python exceptions are modelled with Except; machine state of
the Streamlit session is an explicit record.  Heap-allocated metadata
dictionaries are modelled by an explicit object store so that aliasing
claims about the accepted snapshot are meaningful.
-/

namespace Swatch

/-! ### Characters and small string helpers -/

/-- The double-quote character. -/
def dqChar : Char := Char.ofNat 34

/-- The single-quote character. -/
def sqChar : Char := Char.ofNat 39

/-- The backslash character. -/
def bsChar : Char := Char.ofNat 92

/-- The opening curly-bracket character. -/
def lbChar : Char := Char.ofNat 123

/-- The closing curly-bracket character. -/
def rbChar : Char := Char.ofNat 125

/-- The dot character. -/
def dotChar : Char := Char.ofNat 46

def dqS : String := String.singleton dqChar
def lbS : String := String.singleton lbChar
def rbS : String := String.singleton rbChar

/-- ASCII whitespace as Python str.strip removes it. -/
def pyWhite (c : Char) : Bool :=
  c.toNat = 32 || c.toNat = 9 || c.toNat = 10 || c.toNat = 13 ||
  c.toNat = 12 || c.toNat = 11

/-- Python str.strip(): drop leading and trailing whitespace. -/
def pyStrip (s : String) : String :=
  String.mk (((s.data.dropWhile pyWhite).reverse.dropWhile pyWhite).reverse)

/-- Join a list of strings with a separator (used for Python-style joins). -/
def joinSep (sep : String) : List String → String
  | [] => ""
  | [x] => x
  | x :: y :: rest => x ++ sep ++ joinSep sep (y :: rest)

/-- Lowercase hexadecimal digit. -/
def hexDigitChar (n : Nat) : Char :=
  if n < 10 then Char.ofNat (48 + n) else Char.ofNat (87 + n)

/-- A \uXXXX escape with four lowercase hex digits. -/
def uEscape (n : Nat) : String :=
  String.singleton bsChar ++ "u" ++
    String.mk [hexDigitChar (n / 4096 % 16), hexDigitChar (n / 256 % 16),
               hexDigitChar (n / 16 % 16), hexDigitChar (n % 16)]

/-! ### JSON escaping, following the observable output of json.dumps -/

/-- Escape one character the way json.dumps does.  With `ascii` set
(the default ensure_ascii=True used for the fingerprint serializations in
app.py) every character outside printable ASCII becomes a \uXXXX escape
(surrogate pairs above the BMP); with `ascii` false (db.py passes
ensure_ascii=False) only control characters, the quote and the backslash
are escaped. -/
def jsonEscapeChar (ascii : Bool) (c : Char) : String :=
  let n := c.toNat
  if c = dqChar then String.singleton bsChar ++ dqS
  else if c = bsChar then String.singleton bsChar ++ String.singleton bsChar
  else if n = 10 then String.singleton bsChar ++ "n"
  else if n = 13 then String.singleton bsChar ++ "r"
  else if n = 9 then String.singleton bsChar ++ "t"
  else if n = 8 then String.singleton bsChar ++ "b"
  else if n = 12 then String.singleton bsChar ++ "f"
  else if n < 32 then uEscape n
  else if ascii && n > 126 then
    if n < 65536 then uEscape n
    else uEscape (55296 + (n - 65536) / 1024) ++ uEscape (56320 + (n - 65536) % 1024)
  else String.singleton c

/-- A JSON string literal as json.dumps renders it. -/
def jsonQuote (ascii : Bool) (s : String) : String :=
  dqS ++ String.join (s.data.map (jsonEscapeChar ascii)) ++ dqS

/-- json.dumps of a list of strings, with the default ", " separator. -/
def jsonDumpsStrList (ascii : Bool) (l : List String) : String :=
  "[" ++ joinSep ", " (l.map (jsonQuote ascii)) ++ "]"

/-! ### JSON values (result of json.loads) -/

/-- A parsed JSON value.  Objects are association lists in insertion
order; json numbers are restricted to integers (no claim depends on
floating point). -/
inductive JVal where
  | jnull : JVal
  | jbool : Bool → JVal
  | jnum : Int → JVal
  | jstr : String → JVal
  | jarr : List JVal → JVal
  | jobj : List (String × JVal) → JVal

/-- Python dict.get with default None: first matching key, else jnull. -/
def dictGet (fs : List (String × JVal)) (k : String) : JVal :=
  match fs.lookup k with
  | some v => v
  | none => .jnull

/-- Python truthiness of a JSON value. -/
def truthy : JVal → Bool
  | .jnull => false
  | .jbool b => b
  | .jnum n => n ≠ 0
  | .jstr s => s ≠ ""
  | .jarr xs => !xs.isEmpty
  | .jobj fs => !fs.isEmpty

/-- Whether the Python value is hashable (set membership hashes its
operand; lists and dicts raise TypeError there). -/
def hashable : JVal → Bool
  | .jarr _ => false
  | .jobj _ => false
  | _ => true

/-! ### Python str()/repr() of values, as used in f-string messages -/

/-- Escape one character inside a Python string repr with the given
delimiter quote. -/
def pyEscapeChar (delim : Char) (c : Char) : String :=
  if c = bsChar then String.singleton bsChar ++ String.singleton bsChar
  else if c = delim then String.singleton bsChar ++ String.singleton delim
  else if c.toNat = 10 then String.singleton bsChar ++ "n"
  else if c.toNat = 13 then String.singleton bsChar ++ "r"
  else if c.toNat = 9 then String.singleton bsChar ++ "t"
  else String.singleton c

/-- Python repr of a string: single quotes, switching to double quotes
when the text contains a single quote but no double quote. -/
def pyReprStr (s : String) : String :=
  let hasSq := s.data.contains sqChar
  let hasDq := s.data.contains dqChar
  let delim : Char := if hasSq && !hasDq then dqChar else sqChar
  String.singleton delim ++ String.join (s.data.map (pyEscapeChar delim)) ++
    String.singleton delim

mutual

/-- Python repr of a JSON value. -/
def pyRepr : JVal → String
  | .jnull => "None"
  | .jbool b => if b then "True" else "False"
  | .jnum n => toString n
  | .jstr s => pyReprStr s
  | .jarr xs => "[" ++ pyReprSeq xs ++ "]"
  | .jobj fs => lbS ++ pyReprFields fs ++ rbS

/-- Comma-joined reprs of list elements. -/
def pyReprSeq : List JVal → String
  | [] => ""
  | [x] => pyRepr x
  | x :: y :: rest => pyRepr x ++ ", " ++ pyReprSeq (y :: rest)

/-- Comma-joined reprs of dict items. -/
def pyReprFields : List (String × JVal) → String
  | [] => ""
  | [(k, v)] => pyReprStr k ++ ": " ++ pyRepr v
  | (k, v) :: f :: rest => pyReprStr k ++ ": " ++ pyRepr v ++ ", " ++ pyReprFields (f :: rest)

end

/-- Python str() of a JSON value: identical to repr except on strings. -/
def pyStr : JVal → String
  | .jstr s => s
  | v => pyRepr v

/-! ### Metadata records and the canonical fingerprint

The edit controls of app.py produce a fully typed record (final_meta,
app.py lines 204-210): strings for the selectboxes and text inputs, a
list of strings for the multiselect. -/

/-- The typed metadata record built from the edit controls. -/
structure MetadataRecord where
  primary_color : String
  secondary_colors : List String
  design_style : String
  theme : String
  suitable_for : String
deriving DecidableEq

/-- json.dumps(meta, sort_keys=True) for a five-field metadata dict
(app.py lines 243 and 264): keys in sorted order design_style,
primary_color, secondary_colors, suitable_for, theme, default
separators, ensure_ascii. -/
def fingerprint (m : MetadataRecord) : String :=
  lbS ++ jsonQuote true "design_style" ++ ": " ++ jsonQuote true m.design_style ++
  ", " ++ jsonQuote true "primary_color" ++ ": " ++ jsonQuote true m.primary_color ++
  ", " ++ jsonQuote true "secondary_colors" ++ ": " ++ jsonDumpsStrList true m.secondary_colors ++
  ", " ++ jsonQuote true "suitable_for" ++ ": " ++ jsonQuote true m.suitable_for ++
  ", " ++ jsonQuote true "theme" ++ ": " ++ jsonQuote true m.theme ++ rbS

/-! ### Categorical validator (llm.py, validate_categorical)

Python set membership hashes its left operand, so an unhashable value
(list or dict) raises TypeError; this is modelled with Except.  The
catalog sets are modelled as lists of strings with list membership. -/

/-- Python membership test of a value against a set of strings.  Raises
TypeError when the value is unhashable. -/
def pyMem (v : JVal) (s : List String) : Except String Bool :=
  if hashable v then
    .ok (match v with
         | .jstr str => decide (str ∈ s)
         | _ => false)
  else .error "TypeError: unhashable type"

/-- One membership check of validate_categorical: no message when the
value is in the set, otherwise the f-string message naming the field and
the value. -/
def checkMem (field : String) (v : JVal) (s : List String) : Except String (List String) :=
  match pyMem v s with
  | .error e => .error e
  | .ok true => .ok []
  | .ok false => .ok [field ++ " not in options: " ++ pyStr v]

/-- The list comprehension that collects secondary-color entries missing
from the color set, left to right, raising on the first unhashable
element. -/
def badFilter : List JVal → List String → Except String (List JVal)
  | [], _ => .ok []
  | x :: xs, s =>
    match pyMem x s with
    | .error e => .error e
    | .ok b =>
      match badFilter xs s with
      | .error e => .error e
      | .ok rest => .ok (if b then rest else x :: rest)

/-- The secondary_colors check of validate_categorical: a non-list value
yields the type message, otherwise the bad entries are reported when
present. -/
def checkSecondary (v : JVal) (color_set : List String) : Except String (List String) :=
  match v with
  | .jarr xs =>
    match badFilter xs color_set with
    | .error e => .error e
    | .ok bad => .ok (if bad.isEmpty then [] else
        ["secondary_colors invalid values: " ++ pyStr (.jarr bad)])
  | _ => .ok ["secondary_colors must be a list"]

/-- llm.py validate_categorical: the four checks in source order, errors
(raised TypeError) propagating from the first failing membership test. -/
def validate_categorical (meta : List (String × JVal))
    (color_set design_set theme_set : List String) : Except String (List String) :=
  let pc := dictGet meta "primary_color"
  let sc := dictGet meta "secondary_colors"
  let ds := dictGet meta "design_style"
  let th := dictGet meta "theme"
  match checkMem "primary_color" pc color_set with
  | .error e => .error e
  | .ok e1 =>
    match checkSecondary sc color_set with
    | .error e => .error e
    | .ok e2 =>
      match checkMem "design_style" ds design_set with
      | .error e => .error e
      | .ok e3 =>
        match checkMem "theme" th theme_set with
        | .error e => .error e
        | .ok e4 => .ok (e1 ++ e2 ++ e3 ++ e4)

/-- Whether a value is a string that belongs to a string set. -/
def strMemB (v : JVal) (s : List String) : Bool :=
  match v with
  | .jstr str => decide (str ∈ s)
  | _ => false

/-- Validity of a metadata dict in the sense of section 3 of the spec:
primary_color, design_style and theme are members of their catalogs and
every entry of secondary_colors is a member of colors. -/
def ValidDictB (meta : List (String × JVal))
    (color_set design_set theme_set : List String) : Bool :=
  strMemB (dictGet meta "primary_color") color_set &&
  (match dictGet meta "secondary_colors" with
   | .jarr xs => xs.all (fun x => strMemB x color_set)
   | _ => false) &&
  strMemB (dictGet meta "design_style") design_set &&
  strMemB (dictGet meta "theme") theme_set

/-- A violation message names its offending field and value(s): it is
one of the four source messages, built from the field name and the
str()/repr() of the offending value, and the corresponding check indeed
fails on the record. -/
def NamesViolation (meta : List (String × JVal))
    (color_set design_set theme_set : List String) (m : String) : Prop :=
  (m = "primary_color not in options: " ++ pyStr (dictGet meta "primary_color") ∧
     strMemB (dictGet meta "primary_color") color_set = false) ∨
  (m = "secondary_colors must be a list" ∧
     ∀ xs, dictGet meta "secondary_colors" ≠ .jarr xs) ∨
  (∃ xs bad, dictGet meta "secondary_colors" = .jarr xs ∧
     badFilter xs color_set = .ok bad ∧ bad ≠ [] ∧
     m = "secondary_colors invalid values: " ++ pyStr (.jarr bad)) ∨
  (m = "design_style not in options: " ++ pyStr (dictGet meta "design_style") ∧
     strMemB (dictGet meta "design_style") design_set = false) ∨
  (m = "theme not in options: " ++ pyStr (dictGet meta "theme") ∧
     strMemB (dictGet meta "theme") theme_set = false)

/-! ### Extraction parsing (llm.py, _safe_json_load and extract_metadata)

json.loads itself is Python standard library, external to the sources;
it is taken as an abstract parameter `loads` of type
String → Except String JVal so every theorem quantifies over it. -/

/-- Index of the first occurrence of a character (str.find, none for -1). -/
def firstIdxOf (l : List Char) (c : Char) : Option Nat :=
  l.findIdx? (· = c)

/-- Index of the last occurrence of a character (str.rfind, none for -1). -/
def lastIdxOf (l : List Char) (c : Char) : Option Nat :=
  match (l.reverse).findIdx? (· = c) with
  | some i => some (l.length - 1 - i)
  | none => none

/-- The recovery substring text[start : end+1] from the first opening to
the last closing curly bracket, provided both exist and end > start. -/
def braceCandidate (text : String) : Option String :=
  match firstIdxOf text.data lbChar, lastIdxOf text.data rbChar with
  | some start, some stop =>
    if start < stop then some (String.mk ((text.data.drop start).take (stop + 1 - start)))
    else none
  | _, _ => none

/-- llm.py _safe_json_load: direct parse, then the brace-substring
recovery parse whose own parse error propagates, else the ValueError. -/
def safe_json_load (loads : String → Except String JVal) (text : String) :
    Except String JVal :=
  match loads text with
  | .ok v => .ok v
  | .error _ =>
    match braceCandidate text with
    | some candidate => loads candidate
    | none => .error "Could not parse JSON from model output."

/-- llm.py extract_metadata reduced to its parsing effect: the model
response text is stripped, then parsed with the recovery strategy. -/
def extract_metadata (loads : String → Except String JVal) (raw : String) :
    Except String JVal :=
  safe_json_load loads (pyStrip raw)

/-- Python dict.setdefault: insert the default at the end when the key is
absent, otherwise leave the dict unchanged. -/
def setdefault (fs : List (String × JVal)) (k : String) (v : JVal) :
    List (String × JVal) :=
  if (fs.lookup k).isSome then fs else fs ++ [(k, v)]

/-- The five setdefault calls of the Extract handler (app.py lines
117-121), in source order. -/
def applyDefaults (fs : List (String × JVal)) : List (String × JVal) :=
  setdefault (setdefault (setdefault (setdefault (setdefault fs
    "primary_color" (.jstr "")) "secondary_colors" (.jarr []))
    "design_style" (.jstr "")) "theme" (.jstr "")) "suitable_for" (.jstr "")

/-- Applying the setdefault calls to the parsed value: a non-dict value
raises AttributeError (a list has no setdefault), which the handler
catches like a parse failure. -/
def setdefaultsE : JVal → Except String JVal
  | .jobj fs => .ok (.jobj (applyDefaults fs))
  | _ => .error "AttributeError: setdefault"

/-- The whole fallible part of the Extract handler: parse with recovery,
then default the five keys. -/
def extractApplied (loads : String → Except String JVal) (raw : String) :
    Except String JVal :=
  match extract_metadata loads raw with
  | .ok meta => setdefaultsE meta
  | .error e => .error e

/-! ### Edit controls (app.py lines 156-210)

The widgets restrict categorical fields to catalog members.  Their
default values are derived from the draft dict: safe_index for the
selectboxes, a membership filter for the multiselect. -/

/-- app.py safe_index: options.index(value) with every failure (value
absent or not a string) giving 0. -/
def safe_index (options : List String) (v : JVal) : Nat :=
  match v with
  | .jstr s =>
    match options.findIdx? (· = s) with
    | some i => i
    | none => 0
  | _ => 0

/-- Filter the secondary-color entries, keeping the string members of the
color set; an unhashable element raises TypeError. -/
def filterColorMembers : List JVal → List String → Except String (List String)
  | [], _ => .ok []
  | x :: xs, s =>
    match pyMem x s with
    | .error e => .error e
    | .ok b =>
      match filterColorMembers xs s with
      | .error e => .error e
      | .ok rest =>
        pure (match x with
              | .jstr str => if b then str :: rest else rest
              | _ => rest)

/-- The multiselect default (app.py line 173):
[x for x in (draft.get("secondary_colors") or []) if x in color_set].
A falsy value iterates as empty; a string iterates its characters; a
dict iterates its keys; other truthy scalars are not iterable (TypeError,
surfacing as a crashed render, never a committed state change). -/
def secondaryInit (color_set : List String) (v : JVal) : Except String (List String) :=
  let it := if truthy v then v else .jarr []
  match it with
  | .jarr xs => filterColorMembers xs color_set
  | .jstr s => .ok ((s.data.map String.singleton).filter (· ∈ color_set))
  | .jobj fs => .ok ((fs.map Prod.fst).filter (· ∈ color_set))
  | _ => .error "TypeError: not iterable"

/-- str(draft.get("suitable_for") or ""): the empty string for a falsy
value, else Python str() of the value. -/
def suitableInit (v : JVal) : String :=
  if truthy v then pyStr v else ""

/-- dict.get on a parsed JSON value that should be a dict. -/
def dictGetJ (meta : JVal) (k : String) : JVal :=
  match meta with
  | .jobj fs => dictGet fs k
  | _ => .jnull

/-- The widget values produced by rendering the edit controls for a
fresh draft (app.py lines 162-210): selectboxes select
options[safe_index options value], the multiselect defaults to the
filtered members, suitable_for is the stringified draft value. -/
def initWidgets (color_opts design_opts theme_opts : List String) (meta : JVal) :
    Except String MetadataRecord :=
  match secondaryInit color_opts (dictGetJ meta "secondary_colors") with
  | .error e => .error e
  | .ok secondary =>
    .ok { primary_color := color_opts.getD (safe_index color_opts (dictGetJ meta "primary_color")) ""
        , secondary_colors := secondary
        , design_style := design_opts.getD (safe_index design_opts (dictGetJ meta "design_style")) ""
        , theme := theme_opts.getD (safe_index theme_opts (dictGetJ meta "theme")) ""
        , suitable_for := suitableInit (dictGetJ meta "suitable_for") }

/-! ### Session state and transitions (app.py)

st.session_state holds draft_meta, accepted_meta, meta_dirty,
description and desc_based_on_meta.  Metadata dictionaries live on a
heap (object store, addresses are list indices) so that the claim that
the accepted snapshot is a fresh copy rather than an alias of the draft
is a real statement: the Accept handler allocates final_meta as a new
object, and edits never write to allocated objects. -/

/-- One user edit of a metadata field through its widget. -/
inductive EditAction where
  | primary (c : String)
  | secondary (l : List String)
  | design (c : String)
  | theme (t : String)
  | suitable (txt : String)

/-- The Streamlit session state, with an explicit object store for
accepted snapshots. -/
structure SessionState where
  heap : List MetadataRecord
  draft_meta : Option JVal
  widgets : Option MetadataRecord
  accepted_meta : Option Nat
  meta_dirty : Bool
  description : String
  desc_based_on_meta : Option String

/-- _init_state (app.py lines 39-44): everything absent or empty. -/
def initialState : SessionState :=
  { heap := [], draft_meta := none, widgets := none, accepted_meta := none
  , meta_dirty := false, description := "", desc_based_on_meta := none }

/-- The metadata record the accepted_meta reference points at. -/
def acceptedVal (s : SessionState) : Option MetadataRecord :=
  match s.accepted_meta with
  | some a => s.heap.get? a
  | none => none

/-- app.py _mark_dirty (lines 147-153): only when an accepted snapshot
exists, set meta_dirty, drop the accepted reference and clear the
description and its basis. -/
def markDirty (s : SessionState) : SessionState :=
  if s.accepted_meta ≠ none then
    { s with meta_dirty := true, accepted_meta := none,
             description := "", desc_based_on_meta := none }
  else s

/-- Replace one widget value. -/
def setWidget (w : MetadataRecord) : EditAction → MetadataRecord
  | .primary c => { w with primary_color := c }
  | .secondary l => { w with secondary_colors := l }
  | .design c => { w with design_style := c }
  | .theme t => { w with theme := t }
  | .suitable txt => { w with suitable_for := txt }

/-- An edit of a metadata field: the widget value changes and the
on_change callback _mark_dirty runs.  Without rendered widgets there is
nothing to edit. -/
def applyEdit (s : SessionState) (e : EditAction) : SessionState :=
  match s.widgets with
  | some w => markDirty { s with widgets := some (setWidget w e) }
  | none => s

/-- The Extract handler (app.py lines 112-128) given the outcome of
extract_metadata plus the setdefault calls: on success the five session
fields are rewritten and the widgets re-render from the new draft; on any
exception nothing is committed. -/
def extractStep (color_opts design_opts theme_opts : List String)
    (s : SessionState) (res : Except String JVal) : SessionState :=
  match res with
  | .error _ => s
  | .ok meta =>
    { s with draft_meta := some meta,
             widgets := (initWidgets color_opts design_opts theme_opts meta).toOption,
             accepted_meta := none, meta_dirty := false,
             description := "", desc_based_on_meta := none }

/-- The Extract handler applied to a raw model response. -/
def extractHandler (loads : String → Except String JVal)
    (color_opts design_opts theme_opts : List String)
    (s : SessionState) (raw : String) : SessionState :=
  extractStep color_opts design_opts theme_opts s (extractApplied loads raw)

/-- The Accept handler (app.py lines 214-218): allocate final_meta as a
fresh object holding the current widget values, point accepted_meta at
it, clear meta_dirty. -/
def acceptStep (s : SessionState) : SessionState :=
  match s.widgets with
  | some w =>
    { s with heap := s.heap ++ [w], accepted_meta := some s.heap.length,
             meta_dirty := false }
  | none => s

/-- The Generate-description handler (app.py lines 238-245) on success:
the stripped model text becomes the description and the basis is the
fingerprint of the accepted snapshot.  Without an accepted snapshot the
script stopped earlier. -/
def genDescStep (s : SessionState) (raw : String) : SessionState :=
  match acceptedVal s with
  | some a =>
    { s with description := pyStrip raw,
             desc_based_on_meta := some (fingerprint a) }
  | none => s

/-- The description text area (app.py lines 251-255): the session
description becomes whatever the user left in the editor. -/
def editDescStep (s : SessionState) (t : String) : SessionState :=
  { s with description := t }

/-! ### Persistence (db.py) -/

/-- The dict handed to upsert_swatch by the Save handler (app.py lines
271-280); db.py reads suitable_for, description and image_filename with
row.get, so they are nullable at this interface. -/
structure UpsertInput where
  swatch_id : String
  primary_color : String
  secondary_colors : List String
  design_style : String
  theme : String
  suitable_for : Option String
  description : Option String
  image_filename : Option String
deriving DecidableEq

/-- A persisted row of the swatch_metadata table. -/
structure SwatchRow where
  primary_color : String
  secondary_colors : String
  design_style : String
  theme : String
  suitable_for : Option String
  description : Option String
  image_filename : Option String
  updated_at : Nat
deriving DecidableEq

/-- The bound values of the insert statement: every non-key column from
the payload, secondary_colors serialized with
json.dumps(..., ensure_ascii=False), updated_at from now(). -/
def buildRow (row : UpsertInput) (now : Nat) : SwatchRow :=
  { primary_color := row.primary_color
  , secondary_colors := jsonDumpsStrList false row.secondary_colors
  , design_style := row.design_style
  , theme := row.theme
  , suitable_for := row.suitable_for
  , description := row.description
  , image_filename := row.image_filename
  , updated_at := now }

/-- Effect of the single statement
insert ... on conflict (swatch_id) do update set <every non-key column>
on a table keyed uniquely by swatch_id: the first row with the key is
replaced whole, otherwise the row is appended. -/
def insertOnConflict : List (String × SwatchRow) → String → SwatchRow →
    List (String × SwatchRow)
  | [], id, r => [(id, r)]
  | (k, old) :: rest, id, r =>
    if k = id then (id, r) :: rest else (k, old) :: insertOnConflict rest id r

/-- db.py upsert_swatch: serialize secondary_colors, build the bound row
and execute the single upsert statement. -/
def upsert_swatch (table : List (String × SwatchRow)) (row : UpsertInput)
    (now : Nat) : List (String × SwatchRow) :=
  insertOnConflict table row.swatch_id (buildRow row now)

/-! ### The Save handler (app.py lines 258-283) -/

/-- The user-facing warning of the stale-basis refusal. -/
def staleWarning : String :=
  "Metadata changed since last description generation. Please regenerate description."

/-- What the Save button did. -/
inductive SaveOutcome where
  | refusedEmptyDescription
  | refusedStaleBasis (warning : String)
  | saved (payload : UpsertInput)
deriving DecidableEq

/-- The upsert payload of the Save handler: every metadata column from
the accepted snapshot, the stripped session description, the computed
swatch_id and the uploaded filename. -/
def mkPayload (accepted : MetadataRecord) (s : SessionState)
    (swatch_id filename : String) : UpsertInput :=
  { swatch_id := swatch_id
  , primary_color := accepted.primary_color
  , secondary_colors := accepted.secondary_colors
  , design_style := accepted.design_style
  , theme := accepted.theme
  , suitable_for := some accepted.suitable_for
  , description := some (pyStrip s.description)
  , image_filename := some filename }

/-- The Save handler: stop on a blank description; stop with the stale
warning when a basis exists and differs from the fingerprint of the
accepted snapshot; otherwise hand the payload to the upsert.  The button
only exists once a snapshot is accepted (the script stops earlier
otherwise). -/
def saveAction (s : SessionState) (swatch_id filename : String) :
    Option SaveOutcome :=
  match acceptedVal s with
  | none => none
  | some accepted =>
    if pyStrip s.description = "" then some .refusedEmptyDescription
    else
      let current_sig := fingerprint accepted
      match s.desc_based_on_meta with
      | some basis =>
        if basis ≠ current_sig then some (.refusedStaleBasis staleWarning)
        else some (.saved (mkPayload accepted s swatch_id filename))
      | none => some (.saved (mkPayload accepted s swatch_id filename))

/-- The table state after the Save button: the upsert runs exactly when
the handler reached the persistence call, and with the handler payload. -/
def savePersist (s : SessionState) (swatch_id filename : String)
    (table : List (String × SwatchRow)) (now : Nat) :
    Option (List (String × SwatchRow)) :=
  match saveAction s swatch_id filename with
  | some (.saved payload) => some (upsert_swatch table payload now)
  | _ => none

/-- The Save handler writes no session-state field: the session state
after the button is the state before it, whatever the outcome. -/
def saveStep (s : SessionState) : SessionState := s

/-! ### The swatch identifier (app.py lines 96-99) -/

/-- os.path.splitext(filename)[0]: cut at the last dot, unless every
character before it is itself a dot (leading dots never start an
extension). -/
def splitextStem (p : String) : String :=
  match lastIdxOf p.data dotChar with
  | none => p
  | some i =>
    if (p.data.take i).any (fun c => c ≠ dotChar) then String.mk (p.data.take i)
    else p

/-- swatch_id = swatch_id_input.strip() if swatch_id_input.strip() else
os.path.splitext(filename)[0]. -/
def computeSwatchId (inputStr filename : String) : String :=
  if pyStrip inputStr ≠ "" then pyStrip inputStr else splitextStem filename

/-! ### Reachable session states

Edits are capability-constrained by the widgets: a selectbox can only
select a member of its option list; the multiselect only members of the
color options; suitable_for is free text. -/

/-- The values an edit control can produce. -/
def ValidEdit (color_opts design_opts theme_opts : List String) :
    EditAction → Prop
  | .primary c => c ∈ color_opts
  | .secondary l => ∀ x ∈ l, x ∈ color_opts
  | .design c => c ∈ design_opts
  | .theme t => t ∈ theme_opts
  | .suitable _ => True

/-- Categorical validity of a typed record against the catalogs
(section 3 of the spec). -/
def validRecord (color_opts design_opts theme_opts : List String)
    (r : MetadataRecord) : Prop :=
  r.primary_color ∈ color_opts ∧ (∀ x ∈ r.secondary_colors, x ∈ color_opts) ∧
  r.design_style ∈ design_opts ∧ r.theme ∈ theme_opts

/-- The session states reachable through the handlers of app.py. -/
inductive Reachable (color_opts design_opts theme_opts : List String) :
    SessionState → Prop where
  | init : Reachable color_opts design_opts theme_opts initialState
  | extract (s : SessionState) (res : Except String JVal) :
      Reachable color_opts design_opts theme_opts s →
      Reachable color_opts design_opts theme_opts
        (extractStep color_opts design_opts theme_opts s res)
  | edit (s : SessionState) (e : EditAction) :
      Reachable color_opts design_opts theme_opts s →
      ValidEdit color_opts design_opts theme_opts e →
      Reachable color_opts design_opts theme_opts (applyEdit s e)
  | accept (s : SessionState) :
      Reachable color_opts design_opts theme_opts s →
      Reachable color_opts design_opts theme_opts (acceptStep s)
  | genDesc (s : SessionState) (raw : String) :
      Reachable color_opts design_opts theme_opts s →
      Reachable color_opts design_opts theme_opts (genDescStep s raw)
  | editDesc (s : SessionState) (t : String) :
      Reachable color_opts design_opts theme_opts s →
      Reachable color_opts design_opts theme_opts (editDescStep s t)

/-! ### Helper lemmas -/

/-- Edits never write to the object store. -/
theorem applyEdit_heap (s : SessionState) (e : EditAction) :
    (applyEdit s e).heap = s.heap := by
  unfold applyEdit markDirty
  cases s.widgets with
  | none => rfl
  | some w =>
    dsimp only
    split <;> rfl

/-- A sequence of edits never writes to the object store. -/
theorem foldl_applyEdit_heap (es : List EditAction) (s : SessionState) :
    (es.foldl applyEdit s).heap = s.heap := by
  induction es generalizing s with
  | nil => rfl
  | cons e es ih => rw [List.foldl_cons, ih, applyEdit_heap]

/-! ### Demo data shared by the witnesses -/

/-- A concrete catalog-valid record. -/
def demoRec : MetadataRecord :=
  { primary_color := "Blue", secondary_colors := [], design_style := "Modern"
  , theme := "Nature", suitable_for := "" }

/-- A concrete session state holding an accepted snapshot whose
description basis matches its fingerprint. -/
def demoSaveState : SessionState :=
  { heap := [demoRec], draft_meta := none, widgets := some demoRec
  , accepted_meta := some 0, meta_dirty := false, description := "A short description."
  , desc_based_on_meta := some (fingerprint demoRec) }

/-! ### Claim C1 — the Save gate -/

/-- Claim C1: in a state with an accepted snapshot, a description that is
non-empty after stripping and a recorded description basis, a basis that
differs from the fingerprint of the accepted snapshot makes Save refuse
with the regenerate warning and perform no upsert, while a matching basis
makes Save hand exactly the handler payload to the upsert; the handler
writes no session-state field, so the same Save succeeds again. -/
theorem claim_C1_save_gate (s : SessionState) (a : MetadataRecord)
    (b swid fn : String) (table : List (String × SwatchRow)) (now : Nat)
    (h1 : acceptedVal s = some a) (h2 : pyStrip s.description ≠ "")
    (h3 : s.desc_based_on_meta = some b) :
    (b ≠ fingerprint a →
      saveAction s swid fn = some (.refusedStaleBasis staleWarning) ∧
      savePersist s swid fn table now = none) ∧
    (b = fingerprint a →
      saveAction s swid fn = some (.saved (mkPayload a s swid fn)) ∧
      savePersist s swid fn table now =
        some (upsert_swatch table (mkPayload a s swid fn) now) ∧
      saveStep s = s ∧
      saveAction (saveStep s) swid fn = some (.saved (mkPayload a s swid fn))) := by
  constructor
  · intro hne
    have hsa : saveAction s swid fn = some (.refusedStaleBasis staleWarning) := by
      unfold saveAction
      rw [h1, h3]
      simp [h2, hne]
    exact ⟨hsa, by unfold savePersist; rw [hsa]⟩
  · intro heq
    have hsa : saveAction s swid fn = some (.saved (mkPayload a s swid fn)) := by
      unfold saveAction
      rw [h1, h3, heq]
      simp [h2]
    exact ⟨hsa, by unfold savePersist; rw [hsa], rfl, hsa⟩

/-- Witness for claim C1 at a concrete matching state. -/
theorem claim_C1_witness :
    saveAction demoSaveState "SW_1" "photo.png" =
      some (.saved (mkPayload demoRec demoSaveState "SW_1" "photo.png")) :=
  ((claim_C1_save_gate demoSaveState demoRec (fingerprint demoRec) "SW_1"
      "photo.png" [] 0 rfl (by decide) rfl).2 rfl).1

/-! ### Claim C2 — edits invalidate the accepted snapshot -/

/-- Claim C2: with an accepted snapshot present, editing any metadata
field clears the accepted reference, the description and its basis and
sets meta_dirty; with no accepted snapshot an edit changes none of those
four fields. -/
theorem claim_C2_edit_invalidates (s : SessionState) (w : MetadataRecord)
    (e : EditAction) (hw : s.widgets = some w) :
    (s.accepted_meta ≠ none →
      (applyEdit s e).accepted_meta = none ∧
      (applyEdit s e).description = "" ∧
      (applyEdit s e).desc_based_on_meta = none ∧
      (applyEdit s e).meta_dirty = true) ∧
    (s.accepted_meta = none →
      (applyEdit s e).accepted_meta = s.accepted_meta ∧
      (applyEdit s e).description = s.description ∧
      (applyEdit s e).desc_based_on_meta = s.desc_based_on_meta ∧
      (applyEdit s e).meta_dirty = s.meta_dirty) := by
  unfold applyEdit markDirty
  rw [hw]
  constructor
  · intro hacc
    simp [hacc]
  · intro hacc
    simp [hacc]

/-- Witness for claim C2: a concrete edit after accepting. -/
theorem claim_C2_witness :
    (applyEdit demoSaveState (.primary "Red")).accepted_meta = none ∧
    (applyEdit demoSaveState (.primary "Red")).meta_dirty = true :=
  have h := (claim_C2_edit_invalidates demoSaveState demoRec (.primary "Red")
    rfl).1 (by decide)
  ⟨h.1, h.2.2.2⟩

/-! ### Claim C3 — Accept freezes a verbatim value copy -/

/-- Claim C3: Accept points the accepted reference at a freshly
allocated object holding exactly the current draft values (the widget
record), computed without reference to the extraction output
(replacing draft_meta changes nothing), and no sequence of subsequent
draft edits ever rewrites the allocated snapshot object. -/
theorem claim_C3_accept_snapshot (s : SessionState) (w : MetadataRecord)
    (hw : s.widgets = some w) :
    acceptedVal (acceptStep s) = some w ∧
    (∀ m : Option JVal, acceptedVal (acceptStep { s with draft_meta := m }) = some w) ∧
    (∀ es : List EditAction,
      ((es.foldl applyEdit (acceptStep s)).heap).get? s.heap.length = some w) := by
  have hval : acceptedVal (acceptStep s) = some w := by
    unfold acceptStep
    rw [hw]
    unfold acceptedVal
    simp [List.get?_eq_getElem?, List.getElem?_concat_length]
  refine ⟨hval, ?_, ?_⟩
  · intro m
    unfold acceptStep
    rw [show ({ s with draft_meta := m } : SessionState).widgets = some w from hw]
    unfold acceptedVal
    simp [List.get?_eq_getElem?, List.getElem?_concat_length]
  · intro es
    rw [foldl_applyEdit_heap]
    unfold acceptStep
    rw [hw]
    simp [List.get?_eq_getElem?, List.getElem?_concat_length]

/-- Witness for claim C3: accepting in a concrete state, then editing,
leaves the allocated snapshot intact. -/
theorem claim_C3_witness :
    acceptedVal (acceptStep demoSaveState) = some demoRec ∧
    (([EditAction.primary "Red"].foldl applyEdit (acceptStep demoSaveState)).heap).get?
      demoSaveState.heap.length = some demoRec :=
  have h := claim_C3_accept_snapshot demoSaveState demoRec rfl
  ⟨h.1, h.2.2 [EditAction.primary "Red"]⟩

/-! ### Claim C4 — parse recovery and extraction atomicity -/

/-- Claim C4: parsing first tries the direct parse; on its failure the
substring from the first opening to the last closing brace is parsed,
that attempt failing with its own parse error; with no usable brace pair
the ValueError surfaces; and whenever the extraction pipeline fails the
Extract handler leaves the whole session state exactly as it was. -/
theorem claim_C4_parse_recovery (loads : String → Except String JVal)
    (text raw : String) (color_opts design_opts theme_opts : List String)
    (s : SessionState) :
    (∀ v, loads text = .ok v → safe_json_load loads text = .ok v) ∧
    (∀ err, loads text = .error err →
      (∀ c, braceCandidate text = some c → safe_json_load loads text = loads c) ∧
      (braceCandidate text = none →
        safe_json_load loads text = .error "Could not parse JSON from model output.")) ∧
    (∀ err, extractApplied loads raw = .error err →
      extractHandler loads color_opts design_opts theme_opts s raw = s) := by
  refine ⟨?_, ?_, ?_⟩
  · intro v hv
    unfold safe_json_load
    rw [hv]
  · intro err herr
    constructor
    · intro c hc
      unfold safe_json_load
      rw [herr, hc]
    · intro hc
      unfold safe_json_load
      rw [herr, hc]
  · intro err herr
    unfold extractHandler extractStep
    rw [herr]

/-- A concrete stand-in for json.loads accepting only the two-character
object text. -/
def demoLoads : String → Except String JVal :=
  fun t => if t = lbS ++ rbS then .ok (.jobj []) else .error "Expecting value"

/-- Witness for claim C4: recovery succeeds on stray surrounding text,
total failure surfaces the ValueError, and a failed extraction leaves the
session state untouched. -/
theorem claim_C4_witness :
    safe_json_load demoLoads ("Here you go: " ++ lbS ++ rbS ++ " thanks") = .ok (.jobj []) ∧
    safe_json_load demoLoads "no json here" =
      .error "Could not parse JSON from model output." ∧
    extractHandler demoLoads ["Blue"] ["Modern"] ["Nature"] demoSaveState
      "no json here" = demoSaveState :=
  have hA := claim_C4_parse_recovery demoLoads
    ("Here you go: " ++ lbS ++ rbS ++ " thanks") "no json here"
    ["Blue"] ["Modern"] ["Nature"] demoSaveState
  have hrec : safe_json_load demoLoads ("Here you go: " ++ lbS ++ rbS ++ " thanks") =
      demoLoads (lbS ++ rbS) :=
    (hA.2.1 "Expecting value" rfl).1 (lbS ++ rbS) rfl
  have hB := claim_C4_parse_recovery demoLoads "no json here" "no json here"
    ["Blue"] ["Modern"] ["Nature"] demoSaveState
  ⟨hrec.trans rfl,
   (hB.2.1 "Expecting value" rfl).2 rfl,
   hB.2.2 "Could not parse JSON from model output." rfl⟩

/-! ### Claim C5 — defaulting of missing extraction keys -/

/-- Looking a key up in an extended association list finds the original
binding. -/
theorem lookup_append_of_some (fs gs : List (String × JVal)) (k : String)
    (v : JVal) (h : fs.lookup k = some v) : (fs ++ gs).lookup k = some v := by
  induction fs with
  | nil => cases h
  | cons p rest ih =>
    obtain ⟨k1, v1⟩ := p
    rw [List.cons_append]
    simp only [List.lookup] at h ⊢
    cases hb : (k == k1) with
    | true => rw [hb] at h; exact h
    | false => rw [hb] at h; exact ih h

/-- Looking up a key absent from the front list continues in the back
list. -/
theorem lookup_append_of_none (fs gs : List (String × JVal)) (k : String)
    (h : fs.lookup k = none) : (fs ++ gs).lookup k = gs.lookup k := by
  induction fs with
  | nil => rfl
  | cons p rest ih =>
    obtain ⟨k1, v1⟩ := p
    rw [List.cons_append]
    simp only [List.lookup] at h ⊢
    cases hb : (k == k1) with
    | true => rw [hb] at h; cases h
    | false => rw [hb] at h; exact ih h

/-- After setdefault the key maps to its old value, or to the default
when it was absent. -/
theorem setdefault_lookup_self (fs : List (String × JVal)) (k : String)
    (d : JVal) : (setdefault fs k d).lookup k = some ((fs.lookup k).getD d) := by
  unfold setdefault
  cases h : fs.lookup k with
  | some v => simp [h]
  | none =>
    simp only [h, Option.isSome_none, Bool.false_eq_true, if_false, Option.getD_none]
    rw [lookup_append_of_none fs _ k h]
    simp [List.lookup]

/-- setdefault with another key does not change a lookup. -/
theorem setdefault_lookup_ne (fs : List (String × JVal)) (k d2k : String)
    (d : JVal) (h : d2k ≠ k) : (setdefault fs k d).lookup d2k = fs.lookup d2k := by
  unfold setdefault
  split
  · rfl
  · cases h2 : fs.lookup d2k with
    | some v => rw [lookup_append_of_some fs _ d2k v h2]
    | none =>
      rw [lookup_append_of_none fs _ d2k h2]
      have hb : (d2k == k) = false := beq_eq_false_iff_ne.mpr h
      simp [List.lookup, hb]

/-- setdefault preserves present bindings. -/
theorem setdefault_preserves_some (fs : List (String × JVal)) (k k2 : String)
    (d v : JVal) (h : fs.lookup k2 = some v) :
    (setdefault fs k d).lookup k2 = some v := by
  unfold setdefault
  split
  · exact h
  · exact lookup_append_of_some fs _ k2 v h

/-- Claim C5: the setdefault pass of the Extract handler succeeds on any
parsed object, preserves every present binding verbatim (in particular
the order and duplicates of a present secondary_colors sequence), and
fills each of the five absent keys with its documented default — the
empty string, or the empty sequence for secondary_colors — never null or
absent. -/
theorem claim_C5_extraction_defaults (fs : List (String × JVal)) :
    setdefaultsE (.jobj fs) = .ok (.jobj (applyDefaults fs)) ∧
    (∀ k v, fs.lookup k = some v → (applyDefaults fs).lookup k = some v) ∧
    (fs.lookup "primary_color" = none →
      (applyDefaults fs).lookup "primary_color" = some (.jstr "")) ∧
    (fs.lookup "secondary_colors" = none →
      (applyDefaults fs).lookup "secondary_colors" = some (.jarr [])) ∧
    (fs.lookup "design_style" = none →
      (applyDefaults fs).lookup "design_style" = some (.jstr "")) ∧
    (fs.lookup "theme" = none →
      (applyDefaults fs).lookup "theme" = some (.jstr "")) ∧
    (fs.lookup "suitable_for" = none →
      (applyDefaults fs).lookup "suitable_for" = some (.jstr "")) := by
  unfold applyDefaults
  refine ⟨rfl, ?_, ?_, ?_, ?_, ?_, ?_⟩
  · intro k v h
    exact setdefault_preserves_some _ _ _ _ _ (setdefault_preserves_some _ _ _ _ _
      (setdefault_preserves_some _ _ _ _ _ (setdefault_preserves_some _ _ _ _ _
        (setdefault_preserves_some _ _ _ _ _ h))))
  · intro h
    refine setdefault_preserves_some _ _ _ _ _ (setdefault_preserves_some _ _ _ _ _
      (setdefault_preserves_some _ _ _ _ _ (setdefault_preserves_some _ _ _ _ _ ?_)))
    rw [setdefault_lookup_self, h]
    rfl
  · intro h
    refine setdefault_preserves_some _ _ _ _ _ (setdefault_preserves_some _ _ _ _ _
      (setdefault_preserves_some _ _ _ _ _ ?_))
    rw [setdefault_lookup_self, setdefault_lookup_ne _ _ _ _ (by decide), h]
    rfl
  · intro h
    refine setdefault_preserves_some _ _ _ _ _ (setdefault_preserves_some _ _ _ _ _ ?_)
    rw [setdefault_lookup_self, setdefault_lookup_ne _ _ _ _ (by decide),
      setdefault_lookup_ne _ _ _ _ (by decide), h]
    rfl
  · intro h
    refine setdefault_preserves_some _ _ _ _ _ ?_
    rw [setdefault_lookup_self, setdefault_lookup_ne _ _ _ _ (by decide),
      setdefault_lookup_ne _ _ _ _ (by decide),
      setdefault_lookup_ne _ _ _ _ (by decide), h]
    rfl
  · intro h
    rw [setdefault_lookup_self, setdefault_lookup_ne _ _ _ _ (by decide),
      setdefault_lookup_ne _ _ _ _ (by decide),
      setdefault_lookup_ne _ _ _ _ (by decide),
      setdefault_lookup_ne _ _ _ _ (by decide), h]
    rfl

/-- The parsed object of Scenario A: suitable_for absent,
secondary_colors with duplicates. -/
def scenarioA : List (String × JVal) :=
  [("primary_color", .jstr "Blue"),
   ("secondary_colors", .jarr [.jstr "White", .jstr "White", .jstr "Grey"]),
   ("design_style", .jstr "Modern"),
   ("theme", .jstr "Nature")]

/-- Witness for claim C5 on Scenario A: the absent suitable_for becomes
the empty string and the duplicate secondary colors survive in order. -/
theorem claim_C5_witness :
    (applyDefaults scenarioA).lookup "suitable_for" = some (.jstr "") ∧
    (applyDefaults scenarioA).lookup "secondary_colors" =
      some (.jarr [.jstr "White", .jstr "White", .jstr "Grey"]) :=
  have h := claim_C5_extraction_defaults scenarioA
  ⟨h.2.2.2.2.2.2 rfl, h.2.1 "secondary_colors" _ rfl⟩

/-! ### Validator characterization lemmas -/

/-- Membership on a hashable value returns the string-membership bit. -/
theorem pyMem_of_hashable (v : JVal) (s : List String) (h : hashable v = true) :
    pyMem v s = .ok (strMemB v s) := by
  unfold pyMem strMemB
  rw [if_pos h]

/-- Membership on an unhashable value raises. -/
theorem pyMem_of_unhashable (v : JVal) (s : List String) (h : hashable v = false) :
    pyMem v s = .error "TypeError: unhashable type" := by
  unfold pyMem
  rw [h]
  rfl

/-- A successful membership test reports exactly string membership. -/
theorem pyMem_ok (v : JVal) (s : List String) (b : Bool)
    (h : pyMem v s = .ok b) : b = strMemB v s := by
  unfold pyMem at h
  by_cases hh : hashable v = true
  · rw [if_pos hh] at h
    cases h
    unfold strMemB
    cases v <;> rfl
  · rw [if_neg hh] at h
    cases h

/-- A member of a string set is a hashable string. -/
theorem strMemB_hashable (v : JVal) (s : List String) (h : strMemB v s = true) :
    hashable v = true := by
  unfold strMemB at h
  cases v <;> first | rfl | cases h

/-- checkMem on a member produces no message. -/
theorem checkMem_of_mem (f : String) (v : JVal) (s : List String)
    (h : strMemB v s = true) : checkMem f v s = .ok [] := by
  unfold checkMem
  rw [pyMem_of_hashable v s (strMemB_hashable v s h), h]

/-- A silent checkMem means membership. -/
theorem checkMem_ok_nil (f : String) (v : JVal) (s : List String)
    (h : checkMem f v s = .ok []) : strMemB v s = true := by
  unfold checkMem at h
  cases hp : pyMem v s with
  | error e => rw [hp] at h; cases h
  | ok b =>
    rw [hp] at h
    cases b with
    | true => exact (pyMem_ok v s true hp).symm
    | false => cases h

/-- A successful checkMem yields either no message or exactly the
field-naming message of a failed membership. -/
theorem checkMem_ok_cases (f : String) (v : JVal) (s : List String)
    (l : List String) (h : checkMem f v s = .ok l) :
    l = [] ∨ (l = [f ++ " not in options: " ++ pyStr v] ∧ strMemB v s = false) := by
  unfold checkMem at h
  cases hp : pyMem v s with
  | error e => rw [hp] at h; cases h
  | ok b =>
    rw [hp] at h
    cases b with
    | true => cases h; exact Or.inl rfl
    | false =>
      cases h
      exact Or.inr ⟨rfl, by rw [← pyMem_ok v s false hp]⟩

/-- checkMem succeeds whenever the value is hashable. -/
theorem checkMem_ok_of_hashable (f : String) (v : JVal) (s : List String)
    (h : hashable v = true) : ∃ l, checkMem f v s = .ok l := by
  unfold checkMem
  rw [pyMem_of_hashable v s h]
  cases strMemB v s <;> exact ⟨_, rfl⟩

/-- The bad-entry filter is silent on a list of members. -/
theorem badFilter_of_all_mem (xs : List JVal) (s : List String)
    (h : ∀ x ∈ xs, strMemB x s = true) : badFilter xs s = .ok [] := by
  induction xs with
  | nil => rfl
  | cons x rest ih =>
    have hx := h x (List.mem_cons_self x rest)
    unfold badFilter
    rw [pyMem_of_hashable x s (strMemB_hashable x s hx), hx,
      ih (fun y hy => h y (List.mem_cons_of_mem x hy))]
    rfl

/-- A silent bad-entry filter means every entry is a member. -/
theorem badFilter_ok_nil (xs : List JVal) (s : List String)
    (h : badFilter xs s = .ok []) : ∀ x ∈ xs, strMemB x s = true := by
  induction xs with
  | nil => intro x hx; cases hx
  | cons x rest ih =>
    intro y hy
    unfold badFilter at h
    cases hp : pyMem x s with
    | error e => rw [hp] at h; cases h
    | ok b =>
      rw [hp] at h
      dsimp only at h
      cases hr : badFilter rest s with
      | error e => rw [hr] at h; cases h
      | ok bad =>
        rw [hr] at h
        dsimp only at h
        cases b with
        | false => simp at h
        | true =>
          simp only [if_pos] at h
          injection h with h
          subst h
          rcases List.mem_cons.mp hy with hyx | hyr
          · subst hyx
            exact (pyMem_ok y s true hp).symm
          · exact ih hr y hyr

/-- The bad-entry filter succeeds whenever every entry is hashable. -/
theorem badFilter_ok_of_hashable (xs : List JVal) (s : List String)
    (h : ∀ x ∈ xs, hashable x = true) : ∃ bad, badFilter xs s = .ok bad := by
  induction xs with
  | nil => exact ⟨[], rfl⟩
  | cons x rest ih =>
    obtain ⟨bad, hbad⟩ := ih (fun y hy => h y (List.mem_cons_of_mem x hy))
    unfold badFilter
    rw [pyMem_of_hashable x s (h x (List.mem_cons_self x rest)), hbad]
    cases strMemB x s <;> exact ⟨_, rfl⟩

/-- checkSecondary is silent on a member list. -/
theorem checkSecondary_of_valid (v : JVal) (s : List String) (xs : List JVal)
    (hxs : v = .jarr xs) (h : ∀ x ∈ xs, strMemB x s = true) :
    checkSecondary v s = .ok [] := by
  subst hxs
  unfold checkSecondary
  dsimp only
  rw [badFilter_of_all_mem xs s h]
  rfl

/-- A silent checkSecondary means a list whose entries are all members. -/
theorem checkSecondary_ok_nil (v : JVal) (s : List String)
    (h : checkSecondary v s = .ok []) :
    ∃ xs, v = .jarr xs ∧ ∀ x ∈ xs, strMemB x s = true := by
  unfold checkSecondary at h
  cases v with
  | jarr xs =>
    dsimp only at h
    refine ⟨xs, rfl, ?_⟩
    cases hb : badFilter xs s with
    | error e => rw [hb] at h; cases h
    | ok bad =>
      rw [hb] at h
      dsimp only at h
      cases hbad : bad.isEmpty with
      | false => rw [hbad] at h; simp at h
      | true =>
        have : bad = [] := List.isEmpty_iff.mp hbad
        subst this
        exact badFilter_ok_nil xs s hb
  | jnull => cases h
  | jbool b => cases h
  | jnum n => cases h
  | jstr t => cases h
  | jobj fs => cases h

/-- A successful checkSecondary yields no message, the type message on a
non-list, or the bad-values message naming the offending entries. -/
theorem checkSecondary_ok_cases (v : JVal) (s : List String) (l : List String)
    (h : checkSecondary v s = .ok l) :
    l = [] ∨
    (l = ["secondary_colors must be a list"] ∧ ∀ xs, v ≠ .jarr xs) ∨
    (∃ xs bad, v = .jarr xs ∧ badFilter xs s = .ok bad ∧ bad ≠ [] ∧
      l = ["secondary_colors invalid values: " ++ pyStr (.jarr bad)]) := by
  unfold checkSecondary at h
  cases v with
  | jarr xs =>
    dsimp only at h
    cases hb : badFilter xs s with
    | error e => rw [hb] at h; cases h
    | ok bad =>
      rw [hb] at h
      dsimp only at h
      cases hbad : bad.isEmpty with
      | true =>
        rw [hbad] at h
        injection h with h
        exact Or.inl h.symm
      | false =>
        rw [hbad] at h
        injection h with h
        refine Or.inr (Or.inr ⟨xs, bad, rfl, hb, ?_, h.symm⟩)
        intro hnil
        rw [hnil] at hbad
        cases hbad
  | jnull => injection h with h; exact Or.inr (Or.inl ⟨h.symm, by intro xs hxs; cases hxs⟩)
  | jbool b => injection h with h; exact Or.inr (Or.inl ⟨h.symm, by intro xs hxs; cases hxs⟩)
  | jnum n => injection h with h; exact Or.inr (Or.inl ⟨h.symm, by intro xs hxs; cases hxs⟩)
  | jstr t => injection h with h; exact Or.inr (Or.inl ⟨h.symm, by intro xs hxs; cases hxs⟩)
  | jobj fs => injection h with h; exact Or.inr (Or.inl ⟨h.symm, by intro xs hxs; cases hxs⟩)

/-- checkSecondary succeeds whenever list entries are hashable. -/
theorem checkSecondary_ok_of_hashable (v : JVal) (s : List String)
    (h : ∀ xs, v = .jarr xs → ∀ x ∈ xs, hashable x = true) :
    ∃ l, checkSecondary v s = .ok l := by
  unfold checkSecondary
  cases v with
  | jarr xs =>
    obtain ⟨bad, hbad⟩ := badFilter_ok_of_hashable xs s (h xs rfl)
    dsimp only
    rw [hbad]
    exact ⟨_, rfl⟩
  | jnull => exact ⟨_, rfl⟩
  | jbool b => exact ⟨_, rfl⟩
  | jnum n => exact ⟨_, rfl⟩
  | jstr t => exact ⟨_, rfl⟩
  | jobj fs => exact ⟨_, rfl⟩

/-! ### Claim C6 — the validator characterizes section-3 validity -/

/-- Claim C6: validate_categorical returns the empty violation list
exactly when the record is valid in the sense of section 3, and every
returned violation message names its offending field and offending
value(s). -/
theorem claim_C6_validator (meta : List (String × JVal)) (cs dsl tsl : List String) :
    (validate_categorical meta cs dsl tsl = .ok [] ↔ ValidDictB meta cs dsl tsl = true) ∧
    (∀ msgs, validate_categorical meta cs dsl tsl = .ok msgs →
      ∀ m ∈ msgs, NamesViolation meta cs dsl tsl m) := by
  constructor
  · constructor
    · intro h
      unfold validate_categorical at h
      dsimp only at h
      cases h1 : checkMem "primary_color" (dictGet meta "primary_color") cs with
      | error e => rw [h1] at h; cases h
      | ok l1 =>
        rw [h1] at h
        dsimp only at h
        cases h2 : checkSecondary (dictGet meta "secondary_colors") cs with
        | error e => rw [h2] at h; cases h
        | ok l2 =>
          rw [h2] at h
          dsimp only at h
          cases h3 : checkMem "design_style" (dictGet meta "design_style") dsl with
          | error e => rw [h3] at h; cases h
          | ok l3 =>
            rw [h3] at h
            dsimp only at h
            cases h4 : checkMem "theme" (dictGet meta "theme") tsl with
            | error e => rw [h4] at h; cases h
            | ok l4 =>
              rw [h4] at h
              dsimp only at h
              injection h with happ
              simp only [List.append_eq_nil] at happ
              obtain ⟨⟨⟨e1nil, e2nil⟩, e3nil⟩, e4nil⟩ := happ
              rw [e1nil] at h1
              rw [e2nil] at h2
              rw [e3nil] at h3
              rw [e4nil] at h4
              have hpc := checkMem_ok_nil _ _ _ h1
              obtain ⟨xs, hxs, hmem⟩ := checkSecondary_ok_nil _ _ h2
              have hds := checkMem_ok_nil _ _ _ h3
              have hth := checkMem_ok_nil _ _ _ h4
              simp only [ValidDictB, Bool.and_eq_true]
              refine ⟨⟨⟨hpc, ?_⟩, hds⟩, hth⟩
              rw [hxs]
              simp only [List.all_eq_true]
              exact hmem
    · intro h
      unfold ValidDictB at h
      simp only [Bool.and_eq_true] at h
      obtain ⟨⟨⟨hpc, hsc⟩, hds⟩, hth⟩ := h
      unfold validate_categorical
      dsimp only
      rw [checkMem_of_mem _ _ _ hpc]
      dsimp only
      cases hv : dictGet meta "secondary_colors" with
      | jarr xs =>
        rw [hv] at hsc
        have hall : ∀ x ∈ xs, strMemB x cs = true := by
          simpa only [List.all_eq_true] using hsc
        rw [checkSecondary_of_valid _ _ xs rfl hall]
        dsimp only
        rw [checkMem_of_mem _ _ _ hds]
        dsimp only
        rw [checkMem_of_mem _ _ _ hth]
        rfl
      | jnull => rw [hv] at hsc; simp at hsc
      | jbool b => rw [hv] at hsc; simp at hsc
      | jnum n => rw [hv] at hsc; simp at hsc
      | jstr t => rw [hv] at hsc; simp at hsc
      | jobj fs => rw [hv] at hsc; simp at hsc
  · intro msgs h m hm
    unfold validate_categorical at h
    dsimp only at h
    cases h1 : checkMem "primary_color" (dictGet meta "primary_color") cs with
    | error e => rw [h1] at h; cases h
    | ok l1 =>
      rw [h1] at h
      dsimp only at h
      cases h2 : checkSecondary (dictGet meta "secondary_colors") cs with
      | error e => rw [h2] at h; cases h
      | ok l2 =>
        rw [h2] at h
        dsimp only at h
        cases h3 : checkMem "design_style" (dictGet meta "design_style") dsl with
        | error e => rw [h3] at h; cases h
        | ok l3 =>
          rw [h3] at h
          dsimp only at h
          cases h4 : checkMem "theme" (dictGet meta "theme") tsl with
          | error e => rw [h4] at h; cases h
          | ok l4 =>
            rw [h4] at h
            dsimp only at h
            injection h with happ
            rw [← happ] at hm
            simp only [List.mem_append] at hm
            rcases hm with ((hm1 | hm2) | hm3) | hm4
            · rcases checkMem_ok_cases _ _ _ _ h1 with hnil | ⟨hmsg, hfail⟩
              · rw [hnil] at hm1; cases hm1
              · rw [hmsg] at hm1
                rcases List.mem_singleton.mp hm1 with rfl
                exact Or.inl ⟨rfl, hfail⟩
            · rcases checkSecondary_ok_cases _ _ _ h2 with hnil | ⟨hmsg, hnotlist⟩ | ⟨xs, bad, hxs, hbad, hbne, hmsg⟩
              · rw [hnil] at hm2; cases hm2
              · rw [hmsg] at hm2
                rcases List.mem_singleton.mp hm2 with rfl
                exact Or.inr (Or.inl ⟨rfl, hnotlist⟩)
              · rw [hmsg] at hm2
                rcases List.mem_singleton.mp hm2 with rfl
                exact Or.inr (Or.inr (Or.inl ⟨xs, bad, hxs, hbad, hbne, rfl⟩))
            · rcases checkMem_ok_cases _ _ _ _ h3 with hnil | ⟨hmsg, hfail⟩
              · rw [hnil] at hm3; cases hm3
              · rw [hmsg] at hm3
                rcases List.mem_singleton.mp hm3 with rfl
                exact Or.inr (Or.inr (Or.inr (Or.inl ⟨rfl, hfail⟩)))
            · rcases checkMem_ok_cases _ _ _ _ h4 with hnil | ⟨hmsg, hfail⟩
              · rw [hnil] at hm4; cases hm4
              · rw [hmsg] at hm4
                rcases List.mem_singleton.mp hm4 with rfl
                exact Or.inr (Or.inr (Or.inr (Or.inr ⟨rfl, hfail⟩)))

/-- Witness for claim C6: a concrete valid record validates silently. -/
theorem claim_C6_witness :
    validate_categorical scenarioA ["Blue", "White", "Grey"] ["Modern"] ["Nature"] = .ok [] :=
  (claim_C6_validator scenarioA ["Blue", "White", "Grey"] ["Modern"] ["Nature"]).1.mpr
    (by decide)

/-! ### Claim C7 — validator exception safety (corrected)

The claim as frozen is false on the code: Python set membership hashes
its operand, so a categorical field holding an unhashable value (a list
or dict) makes validate_categorical raise TypeError instead of reporting
a violation message.  The counterexample below exhibits this at
primary_color = []; the amended statement restricts the fields examined
by membership tests to hashable values, for which the validator indeed
never raises, reports type problems as messages, and is deterministic
and mutation-free (the embedding is value-semantic; the source reads
meta only through dict.get and comprehensions). -/

/-- Counterexample for claim C7: with primary_color bound to a list the
membership test `pc not in color_set` hashes the list and raises
TypeError, so validate raises instead of returning violation messages. -/
theorem claim_C7_counterexample :
    validate_categorical [("primary_color", JVal.jarr [])]
      ["Blue"] ["Modern"] ["Nature"] = .error "TypeError: unhashable type" := rfl

/-- Claim C7 as amended: for every record whose primary_color,
design_style and theme values are hashable and whose secondary_colors
entries (when it is a list) are hashable, validate never raises — a
structurally wrong type such as a non-list secondary_colors or a
non-string categorical value is reported through the returned messages —
and validate is pure: it mutates nothing and evaluating it twice on the
same record and catalogs gives identical results. -/
theorem claim_C7_amended_validator_total (meta : List (String × JVal))
    (cs dsl tsl : List String)
    (h1 : hashable (dictGet meta "primary_color") = true)
    (h2 : hashable (dictGet meta "design_style") = true)
    (h3 : hashable (dictGet meta "theme") = true)
    (h4 : ∀ xs, dictGet meta "secondary_colors" = .jarr xs →
      ∀ x ∈ xs, hashable x = true) :
    (∃ msgs, validate_categorical meta cs dsl tsl = .ok msgs) ∧
    validate_categorical meta cs dsl tsl = validate_categorical meta cs dsl tsl := by
  refine ⟨?_, rfl⟩
  obtain ⟨l1, hl1⟩ := checkMem_ok_of_hashable "primary_color" _ cs h1
  obtain ⟨l2, hl2⟩ := checkSecondary_ok_of_hashable _ cs h4
  obtain ⟨l3, hl3⟩ := checkMem_ok_of_hashable "design_style" _ dsl h2
  obtain ⟨l4, hl4⟩ := checkMem_ok_of_hashable "theme" _ tsl h3
  unfold validate_categorical
  dsimp only
  rw [hl1]
  dsimp only
  rw [hl2]
  dsimp only
  rw [hl3]
  dsimp only
  rw [hl4]
  exact ⟨_, rfl⟩

/-- Witness for the amended claim C7: a record with a non-number
primary_color and a non-list secondary_colors still validates without an
exception. -/
theorem claim_C7_amended_witness :
    ∃ msgs, validate_categorical
      [("primary_color", JVal.jnum 5), ("secondary_colors", JVal.jstr "x")]
      ["Blue"] ["Modern"] ["Nature"] = .ok msgs :=
  (claim_C7_amended_validator_total
    [("primary_color", JVal.jnum 5), ("secondary_colors", JVal.jstr "x")]
    ["Blue"] ["Modern"] ["Nature"] rfl rfl rfl
    (by intro xs hxs; cases hxs)).1

/-! ### Claim C8 — idempotent whole-row upsert -/

/-- After the upsert the conflict key maps to the full new row. -/
theorem insertOnConflict_lookup_self (t : List (String × SwatchRow))
    (id : String) (r : SwatchRow) :
    (insertOnConflict t id r).lookup id = some r := by
  induction t with
  | nil => simp [insertOnConflict, List.lookup]
  | cons p rest ih =>
    obtain ⟨k, old⟩ := p
    unfold insertOnConflict
    by_cases hk : k = id
    · subst hk
      simp [List.lookup]
    · have hb : (id == k) = false := beq_eq_false_iff_ne.mpr (Ne.symm hk)
      simp only [if_neg hk, List.lookup, hb]
      exact ih

/-- The upsert leaves every other key alone. -/
theorem insertOnConflict_lookup_ne (t : List (String × SwatchRow))
    (id k2 : String) (r : SwatchRow) (h : k2 ≠ id) :
    (insertOnConflict t id r).lookup k2 = t.lookup k2 := by
  induction t with
  | nil =>
    have hb : (k2 == id) = false := beq_eq_false_iff_ne.mpr h
    simp [insertOnConflict, List.lookup, hb]
  | cons p rest ih =>
    obtain ⟨k, old⟩ := p
    unfold insertOnConflict
    by_cases hk : k = id
    · subst hk
      have hb : (k2 == k) = false := beq_eq_false_iff_ne.mpr h
      simp [List.lookup, hb]
    · simp only [if_neg hk, List.lookup]
      cases hb : (k2 == k) with
      | true => rfl
      | false => exact ih

/-- The keys after the upsert: unchanged on conflict, extended with the
new key otherwise. -/
theorem insertOnConflict_keys (t : List (String × SwatchRow))
    (id : String) (r : SwatchRow) :
    (insertOnConflict t id r).map Prod.fst =
      if id ∈ t.map Prod.fst then t.map Prod.fst else t.map Prod.fst ++ [id] := by
  induction t with
  | nil => simp [insertOnConflict]
  | cons p rest ih =>
    obtain ⟨k, old⟩ := p
    unfold insertOnConflict
    by_cases hk : k = id
    · subst hk
      simp
    · by_cases hmem : id ∈ rest.map Prod.fst
      · simp [hk, Ne.symm hk, hmem, ih]
      · simp [hk, Ne.symm hk, hmem, ih]

/-- The upsert key is present afterwards. -/
theorem insertOnConflict_mem_keys (t : List (String × SwatchRow))
    (id : String) (r : SwatchRow) :
    id ∈ (insertOnConflict t id r).map Prod.fst := by
  rw [insertOnConflict_keys]
  by_cases hmem : id ∈ t.map Prod.fst
  · rw [if_pos hmem]; exact hmem
  · rw [if_neg hmem]; simp

/-- Key uniqueness survives the upsert. -/
theorem insertOnConflict_nodup (t : List (String × SwatchRow))
    (id : String) (r : SwatchRow) (h : (t.map Prod.fst).Nodup) :
    ((insertOnConflict t id r).map Prod.fst).Nodup := by
  rw [insertOnConflict_keys]
  by_cases hmem : id ∈ t.map Prod.fst
  · rw [if_pos hmem]; exact h
  · rw [if_neg hmem]
    simp [List.nodup_append, h, hmem]

/-- On a table with unique keys the upsert leaves exactly one row with
its key. -/
theorem insertOnConflict_unique (t : List (String × SwatchRow))
    (id : String) (r : SwatchRow) (h : (t.map Prod.fst).Nodup) :
    ((insertOnConflict t id r).filter (fun p => p.1 == id)).length = 1 := by
  have hnd := insertOnConflict_nodup t id r h
  have hm := insertOnConflict_mem_keys t id r
  have hcount : ((insertOnConflict t id r).map Prod.fst).count id = 1 := by
    have hle := List.nodup_iff_count_le_one.mp hnd id
    have hpos := List.count_pos_iff.mpr hm
    omega
  calc ((insertOnConflict t id r).filter (fun p => p.1 == id)).length
      = (insertOnConflict t id r).countP (fun p => p.1 == id) :=
        (List.countP_eq_length_filter _ _).symm
    _ = (insertOnConflict t id r).countP ((fun x => x == id) ∘ Prod.fst) := rfl
    _ = ((insertOnConflict t id r).map Prod.fst).countP (fun x => x == id) :=
        (List.countP_map _ _ _).symm
    _ = ((insertOnConflict t id r).map Prod.fst).count id := rfl
    _ = 1 := hcount

/-- Claim C8: upsert_swatch maps the payload key to the full bound row —
every non-key column from the new payload and the fresh updated_at, never
a partial subset — leaves other keys untouched, and upserting the same
swatch_id twice leaves exactly one row with that key, holding exactly the
second payload row. -/
theorem claim_C8_upsert (table : List (String × SwatchRow))
    (hnd : (table.map Prod.fst).Nodup) (row1 row2 : UpsertInput)
    (hid : row1.swatch_id = row2.swatch_id) (now1 now2 : Nat) :
    (upsert_swatch table row1 now1).lookup row1.swatch_id = some (buildRow row1 now1) ∧
    (∀ k, k ≠ row1.swatch_id →
      (upsert_swatch table row1 now1).lookup k = table.lookup k) ∧
    ((upsert_swatch (upsert_swatch table row1 now1) row2 now2).filter
        (fun p => p.1 == row2.swatch_id)).length = 1 ∧
    (upsert_swatch (upsert_swatch table row1 now1) row2 now2).lookup row2.swatch_id =
      some (buildRow row2 now2) ∧
    (upsert_swatch (upsert_swatch table row1 now1) row2 now2).lookup row1.swatch_id =
      some (buildRow row2 now2) := by
  refine ⟨?_, ?_, ?_, ?_, ?_⟩
  · exact insertOnConflict_lookup_self table row1.swatch_id (buildRow row1 now1)
  · intro k hk
    exact insertOnConflict_lookup_ne table row1.swatch_id k (buildRow row1 now1) hk
  · exact insertOnConflict_unique _ row2.swatch_id (buildRow row2 now2)
      (insertOnConflict_nodup table row1.swatch_id (buildRow row1 now1) hnd)
  · exact insertOnConflict_lookup_self _ row2.swatch_id (buildRow row2 now2)
  · rw [hid]
    exact insertOnConflict_lookup_self _ row2.swatch_id (buildRow row2 now2)

/-- A first concrete payload. -/
def demoRow1 : UpsertInput :=
  { swatch_id := "SW_1", primary_color := "Blue", secondary_colors := ["White"]
  , design_style := "Modern", theme := "Nature", suitable_for := some "Bedroom"
  , description := some "First." , image_filename := some "a.png" }

/-- A second concrete payload under the same swatch_id. -/
def demoRow2 : UpsertInput :=
  { swatch_id := "SW_1", primary_color := "Red", secondary_colors := []
  , design_style := "Classic", theme := "Floral", suitable_for := some "Kitchen"
  , description := some "Second." , image_filename := some "b.png" }

/-- Witness for claim C8: two upserts of the same key on an empty table
leave one row equal to the second payload. -/
theorem claim_C8_witness :
    ((upsert_swatch (upsert_swatch [] demoRow1 1) demoRow2 2).filter
        (fun p => p.1 == demoRow2.swatch_id)).length = 1 ∧
    (upsert_swatch (upsert_swatch [] demoRow1 1) demoRow2 2).lookup demoRow2.swatch_id =
      some (buildRow demoRow2 2) :=
  have h := claim_C8_upsert [] List.nodup_nil demoRow1 demoRow2 rfl 1 2
  ⟨h.2.2.1, h.2.2.2.1⟩

/-! ### Claim C9 — reachable accepted snapshots are categorically valid -/

/-- A getD inside the bounds returns a member. -/
theorem getD_mem : ∀ (l : List String) (i : Nat), i < l.length → l.getD i "" ∈ l
  | [], _, h => absurd h (by simp)
  | x :: xs, 0, _ => List.mem_cons_self x xs
  | x :: xs, i + 1, h =>
    List.mem_cons_of_mem x (getD_mem xs i (by simpa using h))

/-- safe_index stays inside a non-empty option list. -/
theorem safe_index_lt (opts : List String) (v : JVal) (h : opts ≠ []) :
    safe_index opts v < opts.length := by
  have hpos : 0 < opts.length := List.length_pos.mpr h
  unfold safe_index
  cases v with
  | jstr s =>
    dsimp only
    cases hf : opts.findIdx? (· = s) with
    | some i => exact (List.findIdx?_eq_some_iff_findIdx_eq.mp hf).1
    | none => exact hpos
  | jnull => exact hpos
  | jbool b => exact hpos
  | jnum n => exact hpos
  | jarr xs => exact hpos
  | jobj fs => exact hpos

/-- Every entry the member filter keeps is a member of the color set. -/
theorem filterColorMembers_subset (xs : List JVal) (s : List String)
    (l : List String) (h : filterColorMembers xs s = .ok l) : ∀ x ∈ l, x ∈ s := by
  induction xs generalizing l with
  | nil =>
    injection h with h
    subst h
    intro x hx
    cases hx
  | cons x rest ih =>
    unfold filterColorMembers at h
    cases hp : pyMem x s with
    | error e => rw [hp] at h; cases h
    | ok b =>
      rw [hp] at h
      dsimp only at h
      cases hr : filterColorMembers rest s with
      | error e => rw [hr] at h; cases h
      | ok kept =>
        rw [hr] at h
        dsimp only at h
        cases x with
        | jstr str =>
          cases b with
          | false =>
            injection h with h
            subst h
            exact ih kept hr
          | true =>
            injection h with h
            subst h
            intro y hy
            rcases List.mem_cons.mp hy with rfl | hyk
            · have hb := pyMem_ok _ _ _ hp
              unfold strMemB at hb
              exact of_decide_eq_true hb.symm
            · exact ih kept hr y hyk
        | jnull => injection h with h; subst h; exact ih kept hr
        | jbool c => injection h with h; subst h; exact ih kept hr
        | jnum n => injection h with h; subst h; exact ih kept hr
        | jarr ys => injection h with h; subst h; exact ih kept hr
        | jobj fs => injection h with h; subst h; exact ih kept hr

/-- Every entry of an initialized multiselect default is a member of the
color set. -/
theorem secondaryInit_subset (s : List String) (v : JVal) (l : List String)
    (h : secondaryInit s v = .ok l) : ∀ x ∈ l, x ∈ s := by
  unfold secondaryInit at h
  cases ht : truthy v with
  | false =>
    rw [ht] at h
    dsimp only at h
    injection h with h
    subst h
    intro x hx
    cases hx
  | true =>
    rw [ht] at h
    dsimp only at h
    cases v with
    | jarr xs => exact filterColorMembers_subset xs s l h
    | jstr t =>
      injection h with h
      subst h
      intro x hx
      exact of_decide_eq_true (List.mem_filter.mp hx).2
    | jobj fs =>
      injection h with h
      subst h
      intro x hx
      exact of_decide_eq_true (List.mem_filter.mp hx).2
    | jnull => cases h
    | jbool b => cases h
    | jnum n => cases h

/-- Freshly rendered widgets are categorically valid. -/
theorem initWidgets_valid (copts dopts topts : List String)
    (hc : copts ≠ []) (hd : dopts ≠ []) (ht : topts ≠ [])
    (meta : JVal) (w : MetadataRecord)
    (h : initWidgets copts dopts topts meta = .ok w) :
    validRecord copts dopts topts w := by
  unfold initWidgets at h
  cases hs : secondaryInit copts (dictGetJ meta "secondary_colors") with
  | error e => rw [hs] at h; cases h
  | ok secondary =>
    rw [hs] at h
    dsimp only at h
    injection h with h
    subst h
    exact ⟨getD_mem _ _ (safe_index_lt _ _ hc),
      fun x hx => secondaryInit_subset _ _ _ hs x hx,
      getD_mem _ _ (safe_index_lt _ _ hd),
      getD_mem _ _ (safe_index_lt _ _ ht)⟩

/-- Valid widgets stay valid under a capability-constrained edit. -/
theorem setWidget_valid (copts dopts topts : List String)
    (w : MetadataRecord) (e : EditAction)
    (hw : validRecord copts dopts topts w)
    (he : ValidEdit copts dopts topts e) :
    validRecord copts dopts topts (setWidget w e) := by
  obtain ⟨h1, h2, h3, h4⟩ := hw
  cases e with
  | primary c => exact ⟨he, h2, h3, h4⟩
  | secondary l => exact ⟨h1, he, h3, h4⟩
  | design c => exact ⟨h1, h2, he, h4⟩
  | theme t => exact ⟨h1, h2, h3, he⟩
  | suitable txt => exact ⟨h1, h2, h3, h4⟩

/-- Invariant of the reachable states: every allocated snapshot and every
rendered widget record is categorically valid. -/
theorem reachable_invariant (copts dopts topts : List String)
    (hc : copts ≠ []) (hd : dopts ≠ []) (ht : topts ≠ [])
    (s : SessionState) (h : Reachable copts dopts topts s) :
    (∀ r ∈ s.heap, validRecord copts dopts topts r) ∧
    (∀ w, s.widgets = some w → validRecord copts dopts topts w) := by
  induction h with
  | init =>
    exact ⟨fun r hr => absurd hr (List.not_mem_nil r), fun w hw => by cases hw⟩
  | extract s res hr ih =>
    cases res with
    | error e => exact ih
    | ok meta =>
      refine ⟨fun r hrm => ih.1 r hrm, fun w hw => ?_⟩
      have hw2 : (initWidgets copts dopts topts meta).toOption = some w := hw
      cases hiw : initWidgets copts dopts topts meta with
      | error e => rw [hiw] at hw2; cases hw2
      | ok w0 =>
        rw [hiw] at hw2
        injection hw2 with hw2
        subst hw2
        exact initWidgets_valid copts dopts topts hc hd ht meta w0 hiw
  | edit s e hr he ih =>
    refine ⟨fun r hrm => ih.1 r (by rwa [applyEdit_heap] at hrm), fun w hw => ?_⟩
    cases hsw : s.widgets with
    | none =>
      unfold applyEdit at hw
      rw [hsw] at hw
      dsimp only at hw
      rw [hsw] at hw
      cases hw
    | some w0 =>
      unfold applyEdit markDirty at hw
      rw [hsw] at hw
      dsimp only at hw
      split at hw <;>
      · injection hw with hw
        subst hw
        exact setWidget_valid copts dopts topts w0 e (ih.2 w0 hsw) he
  | accept s hr ih =>
    unfold acceptStep
    cases hsw : s.widgets with
    | none => exact ih
    | some w =>
      dsimp only
      constructor
      · intro r hrm
        rcases List.mem_append.mp hrm with hin | hsing
        · exact ih.1 r hin
        · rcases List.mem_singleton.mp hsing with rfl
          exact ih.2 r hsw
      · intro w2 hw2
        injection hw2 with hw2
        subst hw2
        exact ih.2 _ hsw
  | genDesc s raw hr ih =>
    unfold genDescStep
    cases hav : acceptedVal s with
    | none => exact ih
    | some a => exact ih
  | editDesc s t hr ih => exact ih

/-- Claim C9: with non-empty catalogs, every reachable session state with
an accepted snapshot has a categorically valid snapshot — the edit
controls only produce catalog members, out-of-catalog draft values fall
back to catalog defaults, and Accept freezes the widget record. -/
theorem claim_C9_accepted_valid (copts dopts topts : List String)
    (hc : copts ≠ []) (hd : dopts ≠ []) (ht : topts ≠ [])
    (s : SessionState) (a : MetadataRecord)
    (hr : Reachable copts dopts topts s) (ha : acceptedVal s = some a) :
    validRecord copts dopts topts a := by
  have hinv := reachable_invariant copts dopts topts hc hd ht s hr
  unfold acceptedVal at ha
  cases hsm : s.accepted_meta with
  | none => rw [hsm] at ha; cases ha
  | some i =>
    rw [hsm] at ha
    dsimp only at ha
    exact hinv.1 a (List.get?_mem ha)

/-- Witness for claim C9: the state reached by extracting an empty
object and accepting holds the catalog-default record, which is valid. -/
theorem claim_C9_witness :
    validRecord ["Blue"] ["Modern"] ["Nature"] demoRec :=
  claim_C9_accepted_valid ["Blue"] ["Modern"] ["Nature"]
    (by decide) (by decide) (by decide)
    (acceptStep (extractStep ["Blue"] ["Modern"] ["Nature"] initialState (.ok (.jobj []))))
    demoRec
    (Reachable.accept _ (Reachable.extract _ _ Reachable.init))
    rfl

/-! ### Claim C10 — the persisted row comes from the accepted snapshot -/

/-- Claim C10: a successful Save hands the upsert a payload built
entirely from the accepted snapshot — never from the mutable draft or
widget state, whose replacement leaves the outcome untouched — with the
stripped session description, the uploaded filename, and a swatch_id
that is the stripped identifier input or, when that is blank, the
filename without its extension. -/
theorem claim_C10_save_payload (s : SessionState) (a : MetadataRecord)
    (inputStr fn : String) (p : UpsertInput)
    (h1 : acceptedVal s = some a)
    (h2 : saveAction s (computeSwatchId inputStr fn) fn = some (.saved p)) :
    p.primary_color = a.primary_color ∧
    p.secondary_colors = a.secondary_colors ∧
    p.design_style = a.design_style ∧
    p.theme = a.theme ∧
    p.suitable_for = some a.suitable_for ∧
    p.description = some (pyStrip s.description) ∧
    p.image_filename = some fn ∧
    p.swatch_id = (if pyStrip inputStr ≠ "" then pyStrip inputStr else splitextStem fn) ∧
    (∀ d w, saveAction { s with draft_meta := d, widgets := w }
      (computeSwatchId inputStr fn) fn = saveAction s (computeSwatchId inputStr fn) fn) := by
  have hp : p = mkPayload a s (computeSwatchId inputStr fn) fn := by
    unfold saveAction at h2
    rw [h1] at h2
    dsimp only at h2
    split at h2
    · cases h2
    · cases hb : s.desc_based_on_meta with
      | some basis =>
        rw [hb] at h2
        dsimp only at h2
        split at h2
        · cases h2
        · injection h2 with h2
          injection h2 with h2
          exact h2.symm
      | none =>
        rw [hb] at h2
        dsimp only at h2
        injection h2 with h2
        injection h2 with h2
        exact h2.symm
  subst hp
  refine ⟨rfl, rfl, rfl, rfl, rfl, rfl, rfl, rfl, ?_⟩
  intro d w
  rfl

/-- Witness for claim C10 at a concrete state: blank identifier input,
so the swatch_id falls back to the filename stem, and the description is
stripped. -/
theorem claim_C10_witness :
    (mkPayload demoRec demoSaveState "photo" "photo.png").description =
      some (pyStrip demoSaveState.description) ∧
    (mkPayload demoRec demoSaveState "photo" "photo.png").swatch_id =
      (if pyStrip " " ≠ "" then pyStrip " " else splitextStem "photo.png") :=
  have h := claim_C10_save_payload demoSaveState demoRec " " "photo.png"
    (mkPayload demoRec demoSaveState "photo" "photo.png") rfl rfl
  ⟨h.2.2.2.2.2.1, h.2.2.2.2.2.2.2.1⟩

end Swatch

